import Mathlib

/-!
Verification development for the rainfrog interaction and rendering core.

The Rust sources are embedded shallowly: `u16` values become `Nat` with the
saturating operations written out explicitly (`u16::saturating_add` is
`min (a + b) 65535`, `u16::saturating_sub` is truncated `Nat` subtraction),
fallible values become `Except`, and the mutable component state becomes
explicit state passing.  External ratatui types (`Rect`, `Buffer`, `Cell`,
`Block`, `TableState`) are modelled from their use sites in this repository.
-/

/-- `u16::saturating_add`. -/
def satAdd16 (a b : Nat) : Nat := min (a + b) 65535

/-- `u16::saturating_mul`. -/
def satMul16 (a b : Nat) : Nat := min (a * b) 65535

/-- ratatui `Rect`: an axis-aligned rectangle of `u16` coordinates. -/
structure Rect where
  x : Nat
  y : Nat
  width : Nat
  height : Nat
deriving DecidableEq

/-- ratatui `Rect::right`: `x.saturating_add(width)`. -/
def Rect.right (r : Rect) : Nat := satAdd16 r.x r.width

/-- ratatui `Rect::bottom`: `y.saturating_add(height)`. -/
def Rect.bottom (r : Rect) : Nat := satAdd16 r.y r.height

/-- ratatui `Rect::is_empty`: true when either dimension is zero. -/
def Rect.is_empty (r : Rect) : Bool := r.width == 0 || r.height == 0

/-- ratatui `Rect::intersection`. -/
def Rect.intersection (r other : Rect) : Rect :=
  let x1 := max r.x other.x
  let y1 := max r.y other.y
  let x2 := min r.right other.right
  let y2 := min r.bottom other.bottom
  ⟨x1, y1, x2 - x1, y2 - y1⟩

/-- ratatui `Cell`: one styled terminal cell.  Colors and the modifier set are
abstracted to `Nat` codes; the claims only compare them for equality. -/
structure Cell where
  symbol : String
  fg : Nat
  bg : Nat
  underline_color : Nat
  modifier : Nat
  skip : Bool
deriving DecidableEq

instance : Inhabited Cell := ⟨⟨" ", 0, 0, 0, 0, false⟩⟩

/-- ratatui `Buffer`: a rectangular region together with its row-major cell
contents. -/
structure Buffer where
  area : Rect
  content : List Cell
deriving DecidableEq

/-- ratatui `Buffer::index_of`: row-major index of the absolute coordinate
`(x, y)` inside the buffer whose area is `bufArea`. -/
def bufIndexOf (bufArea : Rect) (x y : Nat) : Nat :=
  (y - bufArea.y) * bufArea.width + (x - bufArea.x)

/-- Which of the four borders a ratatui `Block` draws. -/
structure Borders where
  left : Bool
  right : Bool
  top : Bool
  bottom : Bool
deriving DecidableEq

/-- ratatui `Block`, restricted to the border information that determines its
inner (usable) area; this is all `scroll_table.rs` depends on. -/
structure Block where
  borders : Borders
deriving DecidableEq

/-- ratatui `Block::inner`: shrink an area by the border chrome. -/
def Block.inner (b : Block) (area : Rect) : Rect :=
  let a1 := if b.borders.left then
    { area with x := min (satAdd16 area.x 1) area.right, width := area.width - 1 }
  else area
  let a2 := if b.borders.top then
    { a1 with y := min (satAdd16 a1.y 1) a1.bottom, height := a1.height - 1 }
  else a1
  let a3 := if b.borders.right then { a2 with width := a2.width - 1 } else a2
  if b.borders.bottom then { a3 with height := a3.height - 1 } else a3

/-- ratatui `BlockExt::inner_if_some` on `Option<Block>`. -/
def inner_if_some : Option Block → Rect → Rect
  | none, area => area
  | some b, area => b.inner area

/-- The `MaxOffsets` pair returned by `get_max_x_offset`. -/
structure MaxOffsets where
  max_x_offset : Nat
  max_y_offset : Nat
deriving DecidableEq

/-- ratatui `TableState` (offset plus optional selection). -/
structure TableState where
  offset : Nat
  selected : Option Nat
deriving DecidableEq

instance : Inhabited TableState := ⟨⟨0, none⟩⟩

/-- ratatui `Table`, restricted to the data `data.rs` stores in it: the header
cells, the value rows and the column spacing. -/
structure Table where
  header_row : List String
  value_rows : List (List String)
  column_spacing : Nat
deriving DecidableEq

instance : Inhabited Table := ⟨⟨[], [], 0⟩⟩

/-- `ScrollDirection` from `scroll_table.rs`. -/
inductive ScrollDirection
  | Left
  | Right
  | Up
  | Down
deriving DecidableEq

/-- `ScrollTable` from `scroll_table.rs`.  The struct literal in the source
lists `child_table`, `child_table_state`, `parent_area`, `block`, `x_offset`
and `max_x_offset`; the methods of the same file additionally read and write
`y_offset`, `max_offsets` and `child_buffer`, so the state carries all of
them. -/
structure ScrollTable where
  child_table : Table
  child_table_state : TableState
  child_buffer : Buffer
  parent_area : Rect
  block : Option Block
  x_offset : Nat
  y_offset : Nat
  max_x_offset : Nat
  max_offsets : MaxOffsets
deriving DecidableEq

/-- `ScrollTable::new` (the fields absent from the literal start from their
`Default`, i.e. zero / empty, values). -/
def ScrollTable.new : ScrollTable where
  child_table := default
  child_table_state := default
  child_buffer := ⟨⟨0, 0, 0, 0⟩, []⟩
  parent_area := ⟨0, 0, 0, 0⟩
  block := none
  x_offset := 0
  y_offset := 0
  max_x_offset := 0
  max_offsets := ⟨0, 0⟩

/-- `ScrollTable::set_child_table` — the body of the source function is just
`self`: the argument (a boxed widget, modelled as a render function) is
dropped and no field is written. -/
def ScrollTable.set_child_table (s : ScrollTable) (_child_table : Rect → Buffer → Buffer) :
    ScrollTable :=
  s

/-- `ScrollTable::block`. -/
def ScrollTable.set_block (s : ScrollTable) (b : Block) : ScrollTable :=
  { s with block := some b }

/-- `ScrollTable::scroll`. -/
def ScrollTable.scroll (s : ScrollTable) (direction : ScrollDirection) : ScrollTable :=
  match direction with
  | ScrollDirection.Left => { s with x_offset := s.x_offset - 1 }
  | ScrollDirection.Right => { s with x_offset := min (satAdd16 s.x_offset 1) s.max_x_offset }
  | ScrollDirection.Up => { s with y_offset := s.y_offset - 1 }
  | ScrollDirection.Down =>
      { s with y_offset := min (satAdd16 s.y_offset 1) s.max_offsets.max_y_offset }

/-- `ScrollTable::reset_scroll`: the source resets `x_offset` and the child
table state; it does not touch `y_offset`. -/
def ScrollTable.reset_scroll (s : ScrollTable) : ScrollTable :=
  { s with x_offset := 0, child_table_state := default }

/-- A sequence of `scroll` calls. -/
def ScrollTable.scrollMany (s : ScrollTable) (ds : List ScrollDirection) : ScrollTable :=
  ds.foldl ScrollTable.scroll s

/-- `get_max_x_offset` from `scroll_table.rs` (the source also renders the
block into a discarded clone of the child buffer, which has no effect on the
result and is omitted). -/
def get_max_x_offset (child_buffer : Buffer) (parent_area : Rect) (parent_block : Option Block) :
    MaxOffsets :=
  let render_area := inner_if_some parent_block parent_area
  if render_area.is_empty then ⟨0, 0⟩
  else
    ⟨child_buffer.area.width - render_area.width,
     child_buffer.area.height - render_area.height⟩

/-- Modelled from the spec: `get_row` lives in the scrollable module, which is
not among the provided sources.  The spec describes the virtual content buffer
as a rectangular row-major grid of styled cells, so row `row` of a grid of
width `width` occupies the cells `[row * width, (row + 1) * width)`. -/
def get_row (content : List Cell) (row width : Nat) : List Cell :=
  (content.drop (row * width)).take width

/-- The cell mutation performed by `Renderer::render`:
`.set_symbol(..).set_fg(..).set_bg(..).set_skip(..)` copies the symbol, the
colors and the skip flag and keeps everything else of the destination cell. -/
def setCellFrom (dst src : Cell) : Cell :=
  { dst with symbol := src.symbol, fg := src.fg, bg := src.bg, skip := src.skip }

/-- `buf.get_mut(x, y).set_…` at a row-major index: rewrite the cell at `i`
from `src`, keeping the rest of the list. -/
def updateAt (content : List Cell) (i : Nat) (src : Cell) : List Cell :=
  match content.get? i with
  | some old => content.set i (setCellFrom old src)
  | none => content

/-- Rust slice indexing `row[i]` (total model; all uses are proved in
bounds). -/
def rowGet (row : List Cell) (i : Nat) : Cell := row.getD i default

/-- The inner `for x in area.x..max_x` loop of `Renderer::render` for one row
`y`. -/
def renderRowLoop (bufArea a : Rect) (x_offset : Nat) (row : List Cell) (y : Nat)
    (xs : List Nat) (content : List Cell) : List Cell :=
  xs.foldl (fun c x => updateAt c (bufIndexOf bufArea x y) (rowGet row ((x + x_offset) - a.x)))
    content

/-- The outer `for y in area.y..max_y` loop of `Renderer::render`; the row for
each `y` is `get_row` at `content_y = y + y_offset - area.y`. -/
def renderLoop (s : ScrollTable) (bufArea a : Rect) (max_x max_y : Nat) (content : List Cell) :
    List Cell :=
  (List.range' a.y (max_y - a.y)).foldl
    (fun acc y =>
      renderRowLoop bufArea a s.x_offset
        (get_row s.child_buffer.content ((y + s.y_offset) - a.y) s.child_buffer.area.width)
        y (List.range' a.x (max_x - a.x)) acc)
    content

/-- `impl Widget for Renderer` (`scroll_table.rs`): draw the block, and unless
the resulting render area is empty copy the visible window of the child buffer
into the physical buffer.  The block drawing itself is external ratatui code
and is passed in as `blockDraw`. -/
def Renderer.render (s : ScrollTable) (blockDraw : Option Block → Rect → Buffer → Buffer)
    (area : Rect) (buf : Buffer) : Buffer :=
  let buf1 := blockDraw s.block area buf
  let render_area := inner_if_some s.block area
  if render_area.is_empty then buf1
  else
    let a := render_area.intersection buf1.area
    let content_height := s.child_buffer.area.height
    let content_width := s.child_buffer.area.width
    let max_x := min (satAdd16 a.x a.width) (satAdd16 a.x content_width)
    let max_y := min (satAdd16 a.y a.height) (satAdd16 a.y content_height)
    { buf1 with content := renderLoop s buf1.area a max_x max_y buf1.content }

/-- `MenuPreview` from `action.rs`. -/
inductive MenuPreview
  | Rows
  | Columns
  | Constraints
  | Indexes
  | Policies
deriving DecidableEq

/-- `ExportFormat` from `action.rs`. -/
inductive ExportFormat
  | CSV
deriving DecidableEq

/-- `Action` from `action.rs` (named `AppAction` here: the file opens `Mathlib`, whose root namespace already has an `Action`). -/
inductive AppAction
  | Tick
  | Render
  | Resize (w h : Nat)
  | Resume
  | Quit
  | Refresh
  | Error (msg : String)
  | Help
  | SubmitEditorQuery
  | SubmitEditorQueryBypassParser
  | Query (query_lines : List String) (execution_confirmed bypass_parsing : Bool)
  | MenuPreview (preview : MenuPreview) (schema table : String)
  | QueryToEditor (lines : List String)
  | ClearHistory
  | AbortQuery
  | FocusMenu
  | FocusEditor
  | FocusHistory
  | FocusData
  | FocusFavorites
  | CycleFocusForwards
  | CycleFocusBackwards
  | LoadMenu
  | CopyData (s : String)
  | RequestExportData (n : Int)
  | ExportData (fmt : ExportFormat)
  | ExportDataFinished
  | RequestSaveFavorite (lines : List String)
  | SaveFavorite (name : String) (lines : List String)
  | DeleteFavorite (name : String)
deriving DecidableEq

/-- Modelled from the spec: the `Focus` enum (`focus.rs` is not among the
provided sources).  The spec lists the regions `{Menu, Editor, History, Data,
Favorites}`, and `app.rs` / `data.rs` use `Focus::Menu`, `Focus::Editor` and
`Focus::Data`. -/
inductive Focus
  | Menu
  | Editor
  | History
  | Data
  | Favorites
deriving DecidableEq

/-- crossterm `KeyCode`, restricted to the arrow keys matched by `data.rs`;
every other key is carried by its code. -/
inductive KeyCode
  | Left
  | Right
  | Up
  | Down
  | Other (code : Nat)
deriving DecidableEq

/-- The terminal events of `tui.rs` as consumed by `app.rs` (key events are
reduced to their key code; modifiers play no role in the embedded logic). -/
inductive Event
  | Quit
  | Tick
  | Render
  | Resize (w h : Nat)
  | Key (code : KeyCode)
  | Other
deriving DecidableEq

/-- The per-region `HashMap<Vec<KeyEvent>, AppAction>` keymap, modelled as an
association list with first-match lookup. -/
def Keymap := List (List KeyCode × AppAction)

/-- `keymap.get(&keys)`. -/
def keymapGet (km : Keymap) (ks : List KeyCode) : Option AppAction :=
  (List.find? (fun p => p.1 = ks) km).map (fun p => p.2)

/-- The `tui::Event::Key` arm of `App::run` (`app.rs` lines 116–134): first
look the single key up in the focused region's keymap; only when that misses,
push the key onto `last_tick_key_events` and look the whole buffer up.  The
result is the emitted action (if any) together with the updated pending
buffer; neither kind of match clears the buffer. -/
def resolveKey (km : Keymap) (pending : List KeyCode) (key : KeyCode) :
    Option AppAction × List KeyCode :=
  match keymapGet km [key] with
  | some action => (some action, pending)
  | none =>
    let extended := pending ++ [key]
    match keymapGet km extended with
    | some action => (some action, extended)
    | none => (none, extended)

/-- The resolver exactly as the spec words it (for comparison with
`resolveKey`): first try the pending buffer extended by the new key as a full
sequence; on a miss try the new key alone; on any match clear the pending
buffer; on no match append the key. -/
def resolveKeySpecModel (km : Keymap) (pending : List KeyCode) (key : KeyCode) :
    Option AppAction × List KeyCode :=
  match keymapGet km (pending ++ [key]) with
  | some action => (some action, [])
  | none =>
    match keymapGet km [key] with
    | some action => (some action, [])
    | none => (none, pending ++ [key])

/-- Effect of one drained action on `last_tick_key_events` (`app.rs` lines
151–217): the `Action::Tick` arm drains the buffer; no other arm touches
it. -/
def processActionBuffer (action : AppAction) (pending : List KeyCode) : List KeyCode :=
  match action with
  | AppAction.Tick => []
  | _ => pending

/-- A column header as produced by the database layer: name and declared
type. -/
structure Header where
  name : String
  type_name : String
deriving DecidableEq

/-- Modelled from the spec: one row of a query result (`database.rs` is not
among the provided sources).  The spec's `Grid` is an ordered sequence of
rows, each an ordered sequence of typed cell values with a parallel header
descriptor per column. -/
structure DbRow where
  columns : List Header
  values : List String
deriving DecidableEq

/-- `DbError`, reduced to its human-readable description. -/
structure DbError where
  description : String
deriving DecidableEq

/-- Modelled from the spec: `get_headers` (`database.rs`) — the header
descriptors of a result grid, one per column. -/
def get_headers (rows : List DbRow) : List Header :=
  match rows with
  | [] => []
  | r :: _ => r.columns

/-- Modelled from the spec: `row_to_vec` (`database.rs`) — the ordered cell
values of one row. -/
def row_to_vec (r : DbRow) : List String := r.values

/-- `DataState` from `data.rs`. -/
inductive DataState
  | NoResults
  | Blank
  | HasResults (t : Table) (requested_width requested_height : Nat)
  | Error (e : DbError)
deriving DecidableEq

/-- Modelled from the spec: `Scrollable::child` (the scrollable module is not
among the provided sources) builds the virtual content buffer of the requested
size for the new result set; offsets are not touched here. -/
def scrollableChild (s : ScrollTable) (w h : Nat) : ScrollTable :=
  { s with child_buffer :=
      ⟨⟨0, 0, min w 65535, min h 65535⟩,
       List.replicate (min w 65535 * min h 65535) default⟩ }

/-- Modelled from the spec: `Scrollable::get_requested_child_offset` — the
vertical virtual coordinate currently aligned with the viewport's origin. -/
def get_requested_child_offset (s : ScrollTable) : Nat := s.y_offset

/-- The `Data` component state (`data.rs`).  Its scroll component is embedded
as the `ScrollTable` of `scroll_table.rs`, the variant the claims cite. -/
structure DataComp where
  scrollable : ScrollTable
  data_state : DataState
  table_state : TableState
deriving DecidableEq

/-- `Data::update_child_after_scroll` (`data.rs` lines 66–76): when results
are present, rebuild the table state at the requested child offset and
re-render the child buffer. -/
def update_child_after_scroll (d : DataComp) : DataComp :=
  match d.data_state with
  | DataState.HasResults _ w h =>
      { d with table_state := ⟨get_requested_child_offset d.scrollable, none⟩,
               scrollable := scrollableChild d.scrollable w h }
  | _ => d

/-- `SettableDataTable::set_data_state` for `Data` (`data.rs` lines 80–113). -/
def set_data_state (d : DataComp) (data : Option (Except DbError (List DbRow))) : DataComp :=
  match data with
  | some (Except.ok rows) =>
    if rows.isEmpty then { d with data_state := DataState.NoResults }
    else
      let headers := get_headers rows
      let header_row := headers.map (fun h => h.name ++ "\n" ++ h.type_name)
      let value_rows := rows.map row_to_vec
      let buf_table : Table := ⟨header_row, value_rows, 1⟩
      let requested_width := satMul16 40 (headers.length % 65536)
      let requested_height := satMul16 2 (rows.length % 65536)
      { d with
          data_state := DataState.HasResults buf_table requested_width requested_height,
          scrollable := scrollableChild d.scrollable requested_width requested_height }
  | some (Except.error e) => { d with data_state := DataState.Error e }
  | none => { d with data_state := DataState.Blank }

/-- `Component::handle_events` for `Data` (`data.rs` lines 127–151): when the
shared focus is not the Data region the handler returns `Ok(None)` at once;
otherwise arrow keys scroll the viewport (vertical moves also refresh the
child).  The handler itself always returns `None` as its action. -/
def DataComp.handle_events (focus : Focus) (event : Option Event) (d : DataComp) :
    DataComp × Option AppAction :=
  if focus ≠ Focus.Data then (d, none)
  else
    match event with
    | some (Event.Key code) =>
      match code with
      | KeyCode.Right => ({ d with scrollable := d.scrollable.scroll ScrollDirection.Right }, none)
      | KeyCode.Left => ({ d with scrollable := d.scrollable.scroll ScrollDirection.Left }, none)
      | KeyCode.Down =>
          (update_child_after_scroll
            { d with scrollable := d.scrollable.scroll ScrollDirection.Down }, none)
      | KeyCode.Up =>
          (update_child_after_scroll
            { d with scrollable := d.scrollable.scroll ScrollDirection.Up }, none)
      | _ => (d, none)
    | _ => (d, none)

/-- `Component::update` for `Data` (`data.rs` lines 153–158): a `Query` action
resets the scroll; everything else is ignored. -/
def DataComp.update (d : DataComp) (action : AppAction) : DataComp × Option AppAction :=
  match action with
  | AppAction.Query _ _ _ => ({ d with scrollable := d.scrollable.reset_scroll }, none)
  | _ => (d, none)

/-- The shared `AppState` (`app.rs`). -/
structure AppState where
  connection_string : String
  focus : Focus
  table_buf_logged : Bool
deriving DecidableEq

/-- The slice of `App` state that the `Action::Query` drain arm touches. -/
structure AppModel where
  state : AppState
  dataComp : DataComp
  pool : Option Unit
  last_tick_key_events : List KeyCode
  should_quit : Bool
deriving DecidableEq

/-- The `Action::Query` match arm of the drain loop (`app.rs` lines 187–203):
when a pool exists, the database query is awaited right there and its result
is passed to `set_data_state` (on success `table_buf_logged` is also
cleared). -/
def processQueryArm (app : AppModel) (results : Except DbError (List DbRow)) : AppModel :=
  match app.pool with
  | some _ =>
    let st := match results with
      | Except.ok _ => { app.state with table_buf_logged := false }
      | Except.error _ => app.state
    { app with state := st, dataComp := set_data_state app.dataComp (some results) }
  | none => app

/-- Drain-pass processing of one `Action::Query`: the match arm above runs
first, then the action is broadcast to the components' `update` handlers
(`data.rs` resets the scroll on `Query`; the menu and editor handlers are out
of the modelled core).  `results` is the value the awaited database call
returns. -/
def processActionQuery (app : AppModel) (q : List String) (c b : Bool)
    (results : Except DbError (List DbRow)) : AppModel :=
  let app1 := processQueryArm app results
  { app1 with dataComp := (app1.dataComp.update (AppAction.Query q c b)).1 }

/-- The horizontal offset bound of the spec, `max(0, content_width −
usable_width)`, computed from a `ScrollTable` state (truncated `Nat`
subtraction is exactly `max(0, a − b)`). -/
def x_bound (s : ScrollTable) : Nat :=
  s.child_buffer.area.width - (inner_if_some s.block s.parent_area).width

/-- The vertical offset bound of the spec, `max(0, content_height −
usable_height)`. -/
def y_bound (s : ScrollTable) : Nat :=
  s.child_buffer.area.height - (inner_if_some s.block s.parent_area).height

/-- Keymap binding both `g` alone and the sequence `g g`. -/
def kmSingleAndMulti : Keymap :=
  [([KeyCode.Other 103], AppAction.Quit),
   ([KeyCode.Other 103, KeyCode.Other 103], AppAction.Help)]

/-- Keymap binding only the two-key sequence `g g`. -/
def kmMultiOnly : Keymap :=
  [([KeyCode.Other 103, KeyCode.Other 103], AppAction.Help)]

/-- A scroll table mid-session: nonzero offsets and a 1×1 content buffer. -/
def stC2 : ScrollTable :=
  { ScrollTable.new with
      x_offset := 2, y_offset := 3,
      child_buffer := ⟨⟨0, 0, 1, 1⟩, [⟨"a", 1, 2, 0, 0, false⟩]⟩ }

/-- An app model with an open pool and a scrolled-down data viewport. -/
def appC7 : AppModel where
  state := ⟨"postgres://localhost", Focus.Editor, true⟩
  dataComp := ⟨{ ScrollTable.new with x_offset := 2, y_offset := 3 }, DataState.Blank, default⟩
  pool := some ()
  last_tick_key_events := []
  should_quit := false

/-- An app model with an open pool and a scrolled-down data viewport
(counterexample input). -/
def appC7x : AppModel where
  state := ⟨"postgres://localhost", Focus.Editor, true⟩
  dataComp := ⟨{ ScrollTable.new with y_offset := 3 }, DataState.Blank, default⟩
  pool := some ()
  last_tick_key_events := []
  should_quit := false

/-- An app model with an open pool and a blank data viewport. -/
def appC9 : AppModel where
  state := ⟨"postgres://localhost", Focus.Editor, false⟩
  dataComp := ⟨ScrollTable.new, DataState.Blank, default⟩
  pool := some ()
  last_tick_key_events := []
  should_quit := false

/-- An app model with an open pool and a blank data viewport (counterexample
input). -/
def appC9x : AppModel where
  state := ⟨"postgres://localhost", Focus.Data, false⟩
  dataComp := ⟨ScrollTable.new, DataState.Blank, default⟩
  pool := some ()
  last_tick_key_events := []
  should_quit := false

/-- A data component used to exercise the unfocused event handler. -/
def dC10 : DataComp := ⟨ScrollTable.new, DataState.Blank, default⟩

/-- A scroll table with a 2×2 child buffer of four distinct cells, offsets at
the origin (render witness input). -/
def stC6 : ScrollTable :=
  { ScrollTable.new with
      child_buffer := ⟨⟨0, 0, 2, 2⟩,
        [⟨"0", 1, 2, 0, 0, false⟩, ⟨"1", 3, 4, 0, 0, true⟩,
         ⟨"2", 5, 6, 0, 0, false⟩, ⟨"3", 7, 8, 0, 0, false⟩]⟩ }

/-- A 4×4 physical buffer of blank cells (render witness input). -/
def bufC6 : Buffer := ⟨⟨0, 0, 4, 4⟩, List.replicate 16 default⟩

/-! ## Helper lemmas -/

theorem scroll_preserves_static (s : ScrollTable) (d : ScrollDirection) :
    (s.scroll d).child_buffer = s.child_buffer ∧ (s.scroll d).parent_area = s.parent_area
    ∧ (s.scroll d).block = s.block ∧ (s.scroll d).max_x_offset = s.max_x_offset
    ∧ (s.scroll d).max_offsets = s.max_offsets := by
  cases d <;> simp [ScrollTable.scroll]

theorem scroll_x_bound (s : ScrollTable) (d : ScrollDirection) :
    x_bound (s.scroll d) = x_bound s := by
  cases d <;> rfl

theorem scroll_y_bound (s : ScrollTable) (d : ScrollDirection) :
    y_bound (s.scroll d) = y_bound s := by
  cases d <;> rfl

theorem scroll_offset_le (s : ScrollTable) (d : ScrollDirection)
    (hmx : s.max_x_offset ≤ x_bound s)
    (hmy : s.max_offsets.max_y_offset ≤ y_bound s)
    (hx : s.x_offset ≤ x_bound s) (hy : s.y_offset ≤ y_bound s) :
    (s.scroll d).x_offset ≤ x_bound s ∧ (s.scroll d).y_offset ≤ y_bound s := by
  cases d <;> simp only [ScrollTable.scroll, satAdd16] <;> constructor <;> omega

theorem satAdd16_eq {a b : Nat} (h : a + b ≤ 65535) : satAdd16 a b = a + b := by
  simp only [satAdd16]
  omega

theorem updateAt_length (cs : List Cell) (i : Nat) (v : Cell) :
    (updateAt cs i v).length = cs.length := by
  unfold updateAt
  cases h : cs.get? i <;> simp [List.length_set]

theorem updateAt_getElem?_ne (cs : List Cell) (i : Nat) (v : Cell) {j : Nat} (h : j ≠ i) :
    (updateAt cs i v)[j]? = cs[j]? := by
  unfold updateAt
  cases h1 : cs.get? i with
  | none => rfl
  | some old => exact List.getElem?_set_ne (Ne.symm h)

theorem updateAt_getElem?_self (cs : List Cell) (i : Nat) (v : Cell) (h : i < cs.length) :
    (updateAt cs i v)[i]? = some (setCellFrom (cs.getD i default) v) := by
  have h1 : cs.get? i = some (cs.getD i default) := by
    rw [List.get?_eq_getElem?, List.getElem?_eq_getElem h, List.getD_eq_getElem?_getD,
      List.getElem?_eq_getElem h]
    rfl
  unfold updateAt
  rw [h1, List.getElem?_set]
  simp [h]

theorem foldl_upd_length (xs : List Nat) (f : Nat → Nat) (v : Nat → Cell) (cs : List Cell) :
    (xs.foldl (fun acc x => updateAt acc (f x) (v x)) cs).length = cs.length := by
  induction xs generalizing cs with
  | nil => rfl
  | cons x xs ih => rw [List.foldl_cons, ih, updateAt_length]

theorem foldl_upd_getElem?_of_ne (xs : List Nat) (f : Nat → Nat) (v : Nat → Cell)
    (cs : List Cell) (j : Nat) (h : ∀ x ∈ xs, f x ≠ j) :
    (xs.foldl (fun acc x => updateAt acc (f x) (v x)) cs)[j]? = cs[j]? := by
  induction xs generalizing cs with
  | nil => rfl
  | cons x xs ih =>
    rw [List.foldl_cons, ih _ (fun y hy => h y (List.mem_cons_of_mem _ hy)),
      updateAt_getElem?_ne _ _ _ (Ne.symm (h x (List.mem_cons_self _ _)))]

theorem foldl_upd_range_getElem? (f : Nat → Nat) (v : Nat → Cell) :
    ∀ (n t : Nat) (cs : List Cell) (x0 : Nat),
      t ≤ x0 → x0 < t + n →
      (∀ x, t ≤ x → x < t + n → f x = f x0 → x = x0) →
      f x0 < cs.length →
      ((List.range' t n).foldl (fun acc x => updateAt acc (f x) (v x)) cs)[f x0]?
        = some (setCellFrom (cs.getD (f x0) default) (v x0)) := by
  intro n
  induction n with
  | zero =>
    intro t cs x0 h1 h2 _ _
    omega
  | succ n ih =>
    intro t cs x0 h1 h2 hinj hlt
    simp only [List.range'_succ, List.foldl_cons]
    by_cases ht : t = x0
    · subst ht
      have hrest : ∀ x ∈ List.range' (t + 1) n, f x ≠ f t := by
        intro x hx hfx
        have hx1 := List.mem_range'_1.mp hx
        have := hinj x (by omega) (by omega) hfx
        omega
      rw [foldl_upd_getElem?_of_ne _ f v _ _ hrest]
      exact updateAt_getElem?_self cs (f t) (v t) hlt
    · have hne : f t ≠ f x0 := fun he => ht (hinj t (by omega) (by omega) he)
      have hgetD : (updateAt cs (f t) (v t)).getD (f x0) default = cs.getD (f x0) default := by
        rw [List.getD_eq_getElem?_getD, List.getD_eq_getElem?_getD,
          updateAt_getElem?_ne _ _ _ (Ne.symm hne)]
      rw [ih (t + 1) (updateAt cs (f t) (v t)) x0 (by omega) (by omega)
        (fun x hx1 hx2 hfx => hinj x (by omega) (by omega) hfx)
        (by rw [updateAt_length]; exact hlt), hgetD]

theorem row_major_inj {w u v u0 v0 : Nat} (hv : v < w) (hv0 : v0 < w)
    (h : u * w + v = u0 * w + v0) : u = u0 ∧ v = v0 := by
  have hw : 0 < w := by omega
  have key : ∀ p q : Nat, q < w → (p * w + q) / w = p ∧ (p * w + q) % w = q := by
    intro p q hq
    constructor
    · rw [Nat.mul_comm, Nat.mul_add_div hw, Nat.div_eq_of_lt hq, Nat.add_zero]
    · rw [Nat.mul_comm, Nat.mul_add_mod, Nat.mod_eq_of_lt hq]
  constructor
  · rw [← (key u v hv).1, ← (key u0 v0 hv0).1, h]
  · rw [← (key u v hv).2, ← (key u0 v0 hv0).2, h]

theorem bufIndexOf_lt (bA : Rect) {x0 y0 : Nat} (hx1 : bA.x ≤ x0) (hx2 : x0 < bA.x + bA.width)
    (hy1 : bA.y ≤ y0) (hy2 : y0 < bA.y + bA.height) :
    bufIndexOf bA x0 y0 < bA.width * bA.height := by
  unfold bufIndexOf
  calc (y0 - bA.y) * bA.width + (x0 - bA.x)
      < (y0 - bA.y) * bA.width + bA.width := by omega
    _ = ((y0 - bA.y) + 1) * bA.width := by ring
    _ ≤ bA.height * bA.width := Nat.mul_le_mul_right _ (by omega)
    _ = bA.width * bA.height := Nat.mul_comm _ _

theorem bufIndexOf_inj_row (bA : Rect) {x x0 y0 : Nat} (hx : bA.x ≤ x) (hx0 : bA.x ≤ x0)
    (h : bufIndexOf bA x y0 = bufIndexOf bA x0 y0) : x = x0 := by
  unfold bufIndexOf at h
  have := Nat.add_left_cancel h
  omega

theorem bufIndexOf_ne_row (bA : Rect) {x y x0 y0 : Nat}
    (hx : bA.x ≤ x) (hxw : x < bA.x + bA.width) (hx0 : bA.x ≤ x0) (hx0w : x0 < bA.x + bA.width)
    (hy : bA.y ≤ y) (hy0 : bA.y ≤ y0) (hne : y ≠ y0) :
    bufIndexOf bA x y ≠ bufIndexOf bA x0 y0 := by
  intro h
  unfold bufIndexOf at h
  have := @row_major_inj bA.width _ _ _ _ (by omega) (by omega) h
  omega

theorem outer_fold_preserve (bA a : Rect) (xo nx : Nat) (rowOf : Nat → List Cell) (j : Nat) :
    ∀ (n t : Nat) (cs : List Cell),
      (∀ y x, t ≤ y → y < t + n → a.x ≤ x → x < a.x + nx → bufIndexOf bA x y ≠ j) →
      ((List.range' t n).foldl
        (fun acc y => renderRowLoop bA a xo (rowOf y) y (List.range' a.x nx) acc) cs)[j]?
        = cs[j]? := by
  intro n
  induction n with
  | zero => intro t cs _; rfl
  | succ n ih =>
    intro t cs h
    simp only [List.range'_succ, List.foldl_cons]
    rw [ih (t + 1) _ (fun y x hy1 hy2 hx1 hx2 => h y x (by omega) (by omega) hx1 hx2)]
    show (renderRowLoop bA a xo (rowOf t) t (List.range' a.x nx) cs)[j]? = cs[j]?
    unfold renderRowLoop
    exact foldl_upd_getElem?_of_ne (List.range' a.x nx) (fun x => bufIndexOf bA x t)
      (fun x => rowGet (rowOf t) ((x + xo) - a.x)) cs j
      (fun x hx => by
        have hx1 := List.mem_range'_1.mp hx
        exact h t x (by omega) (by omega) (by omega) (by omega))

theorem outer_fold_spec (bA a : Rect) (xo nx : Nat) (rowOf : Nat → List Cell)
    (x0 : Nat) (hx0a : a.x ≤ x0) (hx0b : x0 < a.x + nx)
    (hbx : bA.x ≤ a.x) (hbw : a.x + nx ≤ bA.x + bA.width) :
    ∀ (n t : Nat) (cs : List Cell) (y0 : Nat),
      bA.y ≤ t → t ≤ y0 → y0 < t + n → t + n ≤ bA.y + bA.height →
      cs.length = bA.width * bA.height →
      (((List.range' t n).foldl
        (fun acc y => renderRowLoop bA a xo (rowOf y) y (List.range' a.x nx) acc)
        cs)[bufIndexOf bA x0 y0]?)
        = some (setCellFrom (cs.getD (bufIndexOf bA x0 y0) default)
            (rowGet (rowOf y0) ((x0 + xo) - a.x))) := by
  intro n
  induction n with
  | zero =>
    intro t cs y0 _ h1 h2 _ _
    omega
  | succ n ih =>
    intro t cs y0 hbt h1 h2 h3 hlen
    simp only [List.range'_succ, List.foldl_cons]
    by_cases ht : t = y0
    · subst ht
      have hrow : ((renderRowLoop bA a xo (rowOf t) t
            (List.range' a.x nx) cs)[bufIndexOf bA x0 t]?)
          = some (setCellFrom (cs.getD (bufIndexOf bA x0 t) default)
              (rowGet (rowOf t) ((x0 + xo) - a.x))) := by
        unfold renderRowLoop
        exact foldl_upd_range_getElem? (fun x => bufIndexOf bA x t)
          (fun x => rowGet (rowOf t) ((x + xo) - a.x)) nx a.x cs x0 hx0a hx0b
          (fun x hxa hxb he => bufIndexOf_inj_row bA (by omega) (by omega) he)
          (by
            rw [hlen]
            exact bufIndexOf_lt bA (by omega) (by omega) (by omega) (by omega))
      have hpres : ∀ y x, t + 1 ≤ y → y < t + 1 + n → a.x ≤ x → x < a.x + nx →
          bufIndexOf bA x y ≠ bufIndexOf bA x0 t := by
        intro y x hy1 hy2 hxx1 hxx2
        exact bufIndexOf_ne_row bA (by omega) (by omega) (by omega) (by omega) (by omega)
          (by omega) (by omega)
      rw [outer_fold_preserve bA a xo nx rowOf _ n (t + 1) _ hpres]
      exact hrow
    · have hne : ∀ x, a.x ≤ x → x < a.x + nx →
          bufIndexOf bA x t ≠ bufIndexOf bA x0 y0 := by
        intro x hxx1 hxx2
        exact bufIndexOf_ne_row bA (by omega) (by omega) (by omega) (by omega) (by omega)
          (by omega) ht
      have hpres : ((renderRowLoop bA a xo (rowOf t) t
            (List.range' a.x nx) cs)[bufIndexOf bA x0 y0]?)
          = cs[bufIndexOf bA x0 y0]? := by
        unfold renderRowLoop
        exact foldl_upd_getElem?_of_ne (List.range' a.x nx) (fun x => bufIndexOf bA x t)
          (fun x => rowGet (rowOf t) ((x + xo) - a.x)) cs _
          (fun x hx => by
            have hx1 := List.mem_range'_1.mp hx
            exact hne x (by omega) (by omega))
      have hlen2 : (renderRowLoop bA a xo (rowOf t) t (List.range' a.x nx) cs).length
          = cs.length := by
        unfold renderRowLoop
        exact foldl_upd_length (List.range' a.x nx) (fun x => bufIndexOf bA x t)
          (fun x => rowGet (rowOf t) ((x + xo) - a.x)) cs
      have hgetD : (renderRowLoop bA a xo (rowOf t) t
            (List.range' a.x nx) cs).getD (bufIndexOf bA x0 y0) default
          = cs.getD (bufIndexOf bA x0 y0) default := by
        rw [List.getD_eq_getElem?_getD, List.getD_eq_getElem?_getD, hpres]
      rw [ih (t + 1) _ y0 (by omega) (by omega) (by omega) (by omega)
        (by rw [hlen2, hlen]), hgetD]

theorem renderLoop_getElem? (s : ScrollTable) (bA a : Rect) (max_x max_y : Nat)
    (content : List Cell) (x0 y0 : Nat)
    (hx0 : a.x ≤ x0) (hx1 : x0 < max_x) (hy0 : a.y ≤ y0) (hy1 : y0 < max_y)
    (hbx : bA.x ≤ a.x) (hbw : max_x ≤ bA.x + bA.width)
    (hby : bA.y ≤ a.y) (hbh : max_y ≤ bA.y + bA.height)
    (hlen : content.length = bA.width * bA.height) :
    (renderLoop s bA a max_x max_y content)[bufIndexOf bA x0 y0]?
      = some (setCellFrom (content.getD (bufIndexOf bA x0 y0) default)
          (rowGet
            (get_row s.child_buffer.content ((y0 + s.y_offset) - a.y)
              s.child_buffer.area.width)
            ((x0 + s.x_offset) - a.x))) := by
  unfold renderLoop
  exact outer_fold_spec bA a s.x_offset (max_x - a.x)
    (fun y => get_row s.child_buffer.content ((y + s.y_offset) - a.y) s.child_buffer.area.width)
    x0 hx0 (by omega) hbx (by omega)
    (max_y - a.y) a.y content y0 hby hy0 (by omega) (by omega) hlen

theorem rowGet_get_row (cc : List Cell) (cy cw cx : Nat) (hcx : cx < cw) :
    rowGet (get_row cc cy cw) cx = cc.getD (cy * cw + cx) default := by
  unfold rowGet get_row
  rw [List.getD_eq_getElem?_getD, List.getD_eq_getElem?_getD, List.getElem?_take,
    if_pos hcx, List.getElem?_drop]

/-! ## Claim theorems -/

/-- Claim C1: starting from any `ScrollTable` state whose offsets (and stored
clamp values) respect the bound `max(0, content_dimension −
usable_dimension)`, every sequence of `scroll` calls — including repeated
scrolling past either end — leaves each offset within `[0, bound]` for its
axis; the `Nat` embedding of the `u16` saturating arithmetic shows nothing
wraps or goes below zero. -/
theorem scroll_sequence_preserves_offset_bounds (s : ScrollTable) (ds : List ScrollDirection)
    (hmx : s.max_x_offset ≤ x_bound s)
    (hmy : s.max_offsets.max_y_offset ≤ y_bound s)
    (hx : s.x_offset ≤ x_bound s) (hy : s.y_offset ≤ y_bound s) :
    (s.scrollMany ds).x_offset ≤ x_bound (s.scrollMany ds)
    ∧ (s.scrollMany ds).y_offset ≤ y_bound (s.scrollMany ds) := by
  induction ds generalizing s with
  | nil => exact ⟨hx, hy⟩
  | cons d ds ih =>
    have hstat := scroll_preserves_static s d
    have hstep := scroll_offset_le s d hmx hmy hx hy
    have hbx := scroll_x_bound s d
    have hby := scroll_y_bound s d
    have hrec := ih (s.scroll d)
      (by rw [hstat.2.2.2.1, hbx]; exact hmx)
      (by rw [hstat.2.2.2.2, hby]; exact hmy)
      (by rw [hbx]; exact hstep.1)
      (by rw [hby]; exact hstep.2)
    simpa [ScrollTable.scrollMany] using hrec

theorem scroll_sequence_preserves_offset_bounds_witness :
    (ScrollTable.new.scrollMany
        [ScrollDirection.Right, ScrollDirection.Down, ScrollDirection.Left,
         ScrollDirection.Up]).x_offset
      ≤ x_bound (ScrollTable.new.scrollMany
        [ScrollDirection.Right, ScrollDirection.Down, ScrollDirection.Left,
         ScrollDirection.Up])
    ∧ (ScrollTable.new.scrollMany
        [ScrollDirection.Right, ScrollDirection.Down, ScrollDirection.Left,
         ScrollDirection.Up]).y_offset
      ≤ y_bound (ScrollTable.new.scrollMany
        [ScrollDirection.Right, ScrollDirection.Down, ScrollDirection.Left,
         ScrollDirection.Up]) :=
  scroll_sequence_preserves_offset_bounds ScrollTable.new
    [ScrollDirection.Right, ScrollDirection.Down, ScrollDirection.Left, ScrollDirection.Up]
    (by decide) (by decide) (by decide) (by decide)

/-- Claim C2 (code defect): `set_child_table` drops its argument and returns
the receiver unchanged — it neither replaces the stored virtual content nor
resets the offsets, contradicting the documented contract.  Evaluated at a
state with offsets `(2, 3)` and a stored 1×1 buffer, everything is left as it
was. -/
theorem set_child_table_ignores_argument :
    (∀ (s : ScrollTable) (widget : Rect → Buffer → Buffer),
        s.set_child_table widget = s)
    ∧ (stC2.set_child_table (fun _ b => b)).x_offset = 2
    ∧ (stC2.set_child_table (fun _ b => b)).y_offset = 3
    ∧ (stC2.set_child_table (fun _ b => b)).child_buffer = stC2.child_buffer :=
  ⟨fun _ _ => rfl, rfl, rfl, rfl⟩

/-- Claim C3 counterexample: with `g` bound as a single key and `g g` bound as
a sequence, and `g` already pending, the code resolves the new `g` by the
single-key lookup (emitting `Quit`) whereas the spec's longest-sequence-first
order would emit `Help` — the two resolvers disagree. -/
theorem key_resolution_order_counterexample :
    resolveKey kmSingleAndMulti [KeyCode.Other 103] (KeyCode.Other 103)
      = (some AppAction.Quit, [KeyCode.Other 103])
    ∧ resolveKeySpecModel kmSingleAndMulti [KeyCode.Other 103] (KeyCode.Other 103)
      = (some AppAction.Help, [])
    ∧ resolveKey kmSingleAndMulti [KeyCode.Other 103] (KeyCode.Other 103)
      ≠ resolveKeySpecModel kmSingleAndMulti [KeyCode.Other 103] (KeyCode.Other 103) := by
  decide

/-- Claim C3 (amended): the resolver first tries the new key alone as a
length-1 sequence; only on a miss does it append the key to the pending
buffer and try the whole buffer as a sequence; whichever lookup matches first
determines the emitted action, and no match clears the buffer. -/
theorem key_resolution_single_key_first (km : Keymap) (pending : List KeyCode) (key : KeyCode) :
    (∀ a, keymapGet km [key] = some a → resolveKey km pending key = (some a, pending))
    ∧ (keymapGet km [key] = none →
        resolveKey km pending key = (keymapGet km (pending ++ [key]), pending ++ [key])) := by
  constructor
  · intro a h
    simp [resolveKey, h]
  · intro h
    cases h2 : keymapGet km (pending ++ [key]) <;> simp [resolveKey, h, h2]

theorem key_resolution_single_key_first_witness :
    resolveKey kmSingleAndMulti [] (KeyCode.Other 103) = (some AppAction.Quit, [])
    ∧ resolveKey ([] : Keymap) [KeyCode.Other 104] (KeyCode.Other 103)
      = (keymapGet [] ([KeyCode.Other 104] ++ [KeyCode.Other 103]),
         [KeyCode.Other 104] ++ [KeyCode.Other 103]) :=
  ⟨(key_resolution_single_key_first kmSingleAndMulti [] (KeyCode.Other 103)).1
      AppAction.Quit (by decide),
   (key_resolution_single_key_first [] [KeyCode.Other 104] (KeyCode.Other 103)).2 (by decide)⟩

/-- Claim C4 counterexample: a successful two-key match (`g g` with `g`
pending) emits `Help` but leaves the pending buffer holding both keys — a
successful multi-key match does not reset the buffer. -/
theorem multi_key_match_keeps_buffer_counterexample :
    resolveKey kmMultiOnly [KeyCode.Other 103] (KeyCode.Other 103)
      = (some AppAction.Help, [KeyCode.Other 103, KeyCode.Other 103])
    ∧ ([KeyCode.Other 103, KeyCode.Other 103] : List KeyCode) ≠ [] := by
  decide

/-- Claim C4 (amended): key handling never clears the pending buffer — it
either leaves it alone (single-key hit) or appends the key (single-key miss,
whether or not the extended buffer then matches); the buffer is cleared
exactly when an `Action::Tick` is drained, unconditionally, and by no other
drained action. -/
theorem pending_buffer_clearing_behavior (km : Keymap) (pending : List KeyCode)
    (key : KeyCode) (action : AppAction) :
    ((resolveKey km pending key).2 = pending
      ∨ (resolveKey km pending key).2 = pending ++ [key])
    ∧ processActionBuffer AppAction.Tick pending = []
    ∧ (action ≠ AppAction.Tick → processActionBuffer action pending = pending) := by
  refine ⟨?_, rfl, ?_⟩
  · cases h1 : keymapGet km [key] with
    | some a => left; simp [resolveKey, h1]
    | none => right; cases h2 : keymapGet km (pending ++ [key]) <;> simp [resolveKey, h1, h2]
  · intro h
    cases action <;> simp_all [processActionBuffer]

theorem pending_buffer_clearing_behavior_witness :
    ((resolveKey [] [KeyCode.Other 1] (KeyCode.Other 2)).2 = [KeyCode.Other 1]
      ∨ (resolveKey [] [KeyCode.Other 1] (KeyCode.Other 2)).2
          = [KeyCode.Other 1] ++ [KeyCode.Other 2])
    ∧ processActionBuffer AppAction.Tick [KeyCode.Other 1] = []
    ∧ processActionBuffer AppAction.Render [KeyCode.Other 1] = [KeyCode.Other 1] :=
  ⟨(pending_buffer_clearing_behavior [] [KeyCode.Other 1] (KeyCode.Other 2) AppAction.Render).1,
   (pending_buffer_clearing_behavior [] [KeyCode.Other 1] (KeyCode.Other 2) AppAction.Render).2.1,
   (pending_buffer_clearing_behavior [] [KeyCode.Other 1] (KeyCode.Other 2)
      AppAction.Render).2.2 (by decide)⟩

/-- Claim C5: when the block-shrunk render area is nonempty, `get_max_x_offset`
returns exactly `max(0, content_dimension − usable_dimension)` per axis; when
it is empty, both maxima are 0 and `Renderer::render` performs no cell copy at
all — its output is exactly whatever the block drawing produced. -/
theorem max_offsets_and_empty_render_spec (cb : Buffer) (pa : Rect) (blk : Option Block) :
    ((inner_if_some blk pa).is_empty = false →
        get_max_x_offset cb pa blk
          = ⟨cb.area.width - (inner_if_some blk pa).width,
             cb.area.height - (inner_if_some blk pa).height⟩)
    ∧ ((inner_if_some blk pa).is_empty = true →
        get_max_x_offset cb pa blk = ⟨0, 0⟩
        ∧ ∀ (s : ScrollTable) (bd : Option Block → Rect → Buffer → Buffer) (buf : Buffer),
            s.block = blk → Renderer.render s bd pa buf = bd blk pa buf) := by
  constructor
  · intro h
    simp [get_max_x_offset, h]
  · intro h
    refine ⟨by simp [get_max_x_offset, h], ?_⟩
    intro s bd buf hb
    simp [Renderer.render, hb, h]

theorem max_offsets_and_empty_render_spec_witness :
    get_max_x_offset ⟨⟨0, 0, 10, 9⟩, []⟩ ⟨0, 0, 5, 4⟩ (some ⟨⟨true, true, true, true⟩⟩)
      = ⟨7, 7⟩
    ∧ get_max_x_offset ⟨⟨0, 0, 10, 9⟩, []⟩ ⟨0, 0, 1, 1⟩ (some ⟨⟨true, true, true, true⟩⟩)
      = ⟨0, 0⟩ :=
  ⟨(max_offsets_and_empty_render_spec ⟨⟨0, 0, 10, 9⟩, []⟩ ⟨0, 0, 5, 4⟩
      (some ⟨⟨true, true, true, true⟩⟩)).1 (by decide),
   ((max_offsets_and_empty_render_spec ⟨⟨0, 0, 10, 9⟩, []⟩ ⟨0, 0, 1, 1⟩
      (some ⟨⟨true, true, true, true⟩⟩)).2 (by decide)).1⟩

/-- Claim C7 counterexample: from a state scrolled to `y_offset = 3`, a
completed submission returning zero rows does set `NoResults`, but the
vertical offset stays 3 — the offsets are not reset to `(0, 0)`
(`reset_scroll` only resets `x_offset` and the child table state). -/
theorem zero_rows_leaves_vertical_offset_counterexample :
    (processActionQuery appC7x ["select 1"] true false (Except.ok [])).dataComp.data_state
      = DataState.NoResults
    ∧ (processActionQuery appC7x ["select 1"] true false
        (Except.ok [])).dataComp.scrollable.y_offset = 3
    ∧ (3 : Nat) ≠ 0 := by
  decide

/-- Claim C7 (amended): for a completed submission (the `Query` drain arm
followed by the component `update` broadcast), a zero-row success sets
`DataState::NoResults` and the accompanying `reset_scroll` zeroes the
horizontal offset and the child table state but leaves the vertical offset
unchanged; a success with at least one row sets `HasResults` with a header
row built from each column's name and declared type; a failure sets
`DataState::Error` carrying the error, discarding any previous content
state. -/
theorem query_submission_data_state_transitions (app : AppModel) (q : List String) (c b : Bool)
    (hpool : app.pool.isSome = true) :
    ((processActionQuery app q c b (Except.ok [])).dataComp.data_state = DataState.NoResults
      ∧ (processActionQuery app q c b (Except.ok [])).dataComp.scrollable.x_offset = 0
      ∧ (processActionQuery app q c b
          (Except.ok [])).dataComp.scrollable.child_table_state = default
      ∧ (processActionQuery app q c b (Except.ok [])).dataComp.scrollable.y_offset
          = app.dataComp.scrollable.y_offset)
    ∧ (∀ r rs,
        (processActionQuery app q c b (Except.ok (r :: rs))).dataComp.data_state
          = DataState.HasResults
              ⟨(get_headers (r :: rs)).map (fun h => h.name ++ "\n" ++ h.type_name),
               (r :: rs).map row_to_vec, 1⟩
              (satMul16 40 ((get_headers (r :: rs)).length % 65536))
              (satMul16 2 ((r :: rs).length % 65536))
        ∧ (processActionQuery app q c b (Except.ok (r :: rs))).dataComp.scrollable.x_offset = 0)
    ∧ (∀ e,
        (processActionQuery app q c b (Except.error e)).dataComp.data_state = DataState.Error e
        ∧ (processActionQuery app q c b (Except.error e)).dataComp.scrollable.y_offset
            = app.dataComp.scrollable.y_offset) := by
  obtain ⟨u, hu⟩ := Option.isSome_iff_exists.mp hpool
  refine ⟨?_, ?_, ?_⟩
  · simp [processActionQuery, processQueryArm, hu, set_data_state, DataComp.update,
      ScrollTable.reset_scroll]
  · intro r rs
    simp [processActionQuery, processQueryArm, hu, set_data_state, DataComp.update,
      ScrollTable.reset_scroll, scrollableChild]
  · intro e
    simp [processActionQuery, processQueryArm, hu, set_data_state, DataComp.update,
      ScrollTable.reset_scroll]

theorem query_submission_data_state_transitions_witness :
    (processActionQuery appC7 ["select 1"] true false (Except.ok [])).dataComp.data_state
      = DataState.NoResults
    ∧ (processActionQuery appC7 ["select 1"] true false
        (Except.ok [])).dataComp.scrollable.x_offset = 0
    ∧ (processActionQuery appC7 ["select 1"] true false
        (Except.ok [])).dataComp.scrollable.y_offset = appC7.dataComp.scrollable.y_offset :=
  ⟨(query_submission_data_state_transitions appC7 ["select 1"] true false (by decide)).1.1,
   (query_submission_data_state_transitions appC7 ["select 1"] true false (by decide)).1.2.1,
   (query_submission_data_state_transitions appC7 ["select 1"] true false (by decide)).1.2.2.2⟩

/-- Claim C9 counterexample: processing the `Query` action within one drain
pass already changes the data state from `Blank` to `NoResults` — the result
is consumed synchronously by the drain arm (which awaits the database call in
place), not delivered as a later state update. -/
theorem query_result_not_deferred_counterexample :
    (processActionQuery appC9x ["select 1"] true false (Except.ok [])).dataComp.data_state
      = DataState.NoResults
    ∧ appC9x.dataComp.data_state = DataState.Blank
    ∧ DataState.NoResults ≠ appC9x.dataComp.data_state := by
  decide

/-- Claim C9 (amended): the `Action::Query` drain arm awaits the database
query inside the action-drain pass and hands its result to `set_data_state`
before the pass finishes — whenever a pool exists, the data state after the
pass is exactly the one computed from the query's result, so the loop blocks
on the query rather than continuing while it is outstanding. -/
theorem query_result_applied_in_drain_pass (app : AppModel) (q : List String) (c b : Bool)
    (results : Except DbError (List DbRow)) (hpool : app.pool.isSome = true) :
    (processActionQuery app q c b results).dataComp.data_state
      = (set_data_state app.dataComp (some results)).data_state := by
  obtain ⟨u, hu⟩ := Option.isSome_iff_exists.mp hpool
  cases results <;>
    simp [processActionQuery, processQueryArm, hu, DataComp.update]

theorem query_result_applied_in_drain_pass_witness :
    (processActionQuery appC9 ["select 1"] true false (Except.ok [])).dataComp.data_state
      = (set_data_state appC9.dataComp (some (Except.ok []))).data_state :=
  query_result_applied_in_drain_pass appC9 ["select 1"] true false (Except.ok []) (by decide)

/-- Claim C8: a `scroll` call whose offset already sits at its clamped bound —
0 for `Left`/`Up`, the stored clamp value for `Right`/`Down` — leaves that
offset unchanged (the `u16` range bound on the offsets is the type invariant
of the Rust fields). -/
theorem scroll_at_bounds_noop (s : ScrollTable)
    (hx16 : s.x_offset ≤ 65535) (hy16 : s.y_offset ≤ 65535) :
    (s.x_offset = 0 → (s.scroll ScrollDirection.Left).x_offset = s.x_offset)
    ∧ (s.x_offset = s.max_x_offset → (s.scroll ScrollDirection.Right).x_offset = s.x_offset)
    ∧ (s.y_offset = 0 → (s.scroll ScrollDirection.Up).y_offset = s.y_offset)
    ∧ (s.y_offset = s.max_offsets.max_y_offset →
        (s.scroll ScrollDirection.Down).y_offset = s.y_offset) := by
  refine ⟨?_, ?_, ?_, ?_⟩ <;> intro h <;> simp only [ScrollTable.scroll, satAdd16] <;> omega

theorem scroll_at_bounds_noop_witness :
    (ScrollTable.new.scroll ScrollDirection.Left).x_offset = ScrollTable.new.x_offset
    ∧ (ScrollTable.new.scroll ScrollDirection.Right).x_offset = ScrollTable.new.x_offset
    ∧ (ScrollTable.new.scroll ScrollDirection.Up).y_offset = ScrollTable.new.y_offset
    ∧ (ScrollTable.new.scroll ScrollDirection.Down).y_offset = ScrollTable.new.y_offset :=
  ⟨(scroll_at_bounds_noop ScrollTable.new (by decide) (by decide)).1 rfl,
   (scroll_at_bounds_noop ScrollTable.new (by decide) (by decide)).2.1 rfl,
   (scroll_at_bounds_noop ScrollTable.new (by decide) (by decide)).2.2.1 rfl,
   (scroll_at_bounds_noop ScrollTable.new (by decide) (by decide)).2.2.2 rfl⟩

/-- Claim C10: while the shared focus is on any region other than `Data`, the
`Data` component's raw event handler returns no action and leaves the whole
component state — offsets, table state, everything — untouched. -/
theorem unfocused_data_handle_events_noop (focus : Focus) (event : Option Event) (d : DataComp)
    (hfocus : focus ≠ Focus.Data) :
    DataComp.handle_events focus event d = (d, none) := by
  simp [DataComp.handle_events, hfocus]

theorem unfocused_data_handle_events_noop_witness :
    DataComp.handle_events Focus.Editor (some (Event.Key KeyCode.Down)) dC10 = (dC10, none) :=
  unfocused_data_handle_events_noop Focus.Editor (some (Event.Key KeyCode.Down)) dC10
    (by decide)

theorem Renderer.render_spec (s : ScrollTable) (bd : Option Block → Rect → Buffer → Buffer)
    (area : Rect) (buf : Buffer) (b1 : Buffer) (hb1 : b1 = bd s.block area buf)
    (rar : Rect) (hrar : rar = inner_if_some s.block area)
    (ar : Rect) (har : ar = rar.intersection b1.area) :
    Renderer.render s bd area buf
      = if rar.is_empty then b1
        else { b1 with content := (renderLoop s b1.area ar
            (min (satAdd16 ar.x ar.width) (satAdd16 ar.x s.child_buffer.area.width))
            (min (satAdd16 ar.y ar.height) (satAdd16 ar.y s.child_buffer.area.height))
            b1.content) } := by
  subst har
  subst hrar
  subst hb1
  rfl

set_option maxHeartbeats 1600000 in
/-- Claim C6: for a render whose offsets satisfy the clamping invariant, every
physical cell `(x, y)` inside the intersection of the (block-shrunk,
buffer-clipped) render area with the content extent receives the virtual cell
at `(x + x_offset − area.x, y + y_offset − area.y)`, with symbol, foreground
and background copied verbatim (the modifier of the underlying cell is kept);
the first three conjuncts show that under the invariant every such virtual
coordinate — and its row-major index — is in bounds, so the copy needs no
out-of-range defence. -/
theorem render_copies_virtual_cells
    (s : ScrollTable) (bd : Option Block → Rect → Buffer → Buffer) (area : Rect) (buf : Buffer)
    (buf1 : Buffer) (hbuf1 : buf1 = bd s.block area buf)
    (ra : Rect) (hra : ra = inner_if_some s.block area)
    (a : Rect) (ha : a = ra.intersection buf1.area)
    (hne : ra.is_empty = false)
    (hwb : buf1.area.x + buf1.area.width ≤ 65535 ∧ buf1.area.y + buf1.area.height ≤ 65535)
    (hwr : ra.x + ra.width ≤ 65535 ∧ ra.y + ra.height ≤ 65535)
    (hlen : buf1.content.length = buf1.area.width * buf1.area.height)
    (hclen : s.child_buffer.content.length
        = s.child_buffer.area.width * s.child_buffer.area.height)
    (hxo : s.x_offset ≤ s.child_buffer.area.width - a.width)
    (hyo : s.y_offset ≤ s.child_buffer.area.height - a.height)
    (x y : Nat)
    (hx1 : a.x ≤ x) (hx2 : x < a.x + min a.width s.child_buffer.area.width)
    (hy1 : a.y ≤ y) (hy2 : y < a.y + min a.height s.child_buffer.area.height) :
    ((x + s.x_offset) - a.x) < s.child_buffer.area.width
    ∧ ((y + s.y_offset) - a.y) < s.child_buffer.area.height
    ∧ (((y + s.y_offset) - a.y) * s.child_buffer.area.width + ((x + s.x_offset) - a.x))
        < s.child_buffer.content.length
    ∧ ((Renderer.render s bd area buf).content[bufIndexOf buf1.area x y]?)
        = some (setCellFrom (buf1.content.getD (bufIndexOf buf1.area x y) default)
            (s.child_buffer.content.getD
              (((y + s.y_offset) - a.y) * s.child_buffer.area.width
                + ((x + s.x_offset) - a.x))
              default)) := by
  obtain ⟨hwb1, hwb2⟩ := hwb
  obtain ⟨hwr1, hwr2⟩ := hwr
  have hrr : ra.right = ra.x + ra.width := by
    unfold Rect.right
    exact satAdd16_eq hwr1
  have hrb : ra.bottom = ra.y + ra.height := by
    unfold Rect.bottom
    exact satAdd16_eq hwr2
  have hbr : buf1.area.right = buf1.area.x + buf1.area.width := by
    unfold Rect.right
    exact satAdd16_eq hwb1
  have hbb : buf1.area.bottom = buf1.area.y + buf1.area.height := by
    unfold Rect.bottom
    exact satAdd16_eq hwb2
  have haxe : a.x = max ra.x buf1.area.x := by rw [ha]; rfl
  have haye : a.y = max ra.y buf1.area.y := by rw [ha]; rfl
  have hawe : a.width
      = min (ra.x + ra.width) (buf1.area.x + buf1.area.width) - max ra.x buf1.area.x := by
    rw [ha]
    show min ra.right buf1.area.right - max ra.x buf1.area.x = _
    rw [hrr, hbr]
  have hahe : a.height
      = min (ra.y + ra.height) (buf1.area.y + buf1.area.height) - max ra.y buf1.area.y := by
    rw [ha]
    show min ra.bottom buf1.area.bottom - max ra.y buf1.area.y = _
    rw [hrb, hbb]
  have haw0 : 0 < a.width := by omega
  have hah0 : 0 < a.height := by omega
  have hsx1 : buf1.area.x ≤ a.x := by omega
  have hsx2 : a.x + a.width ≤ buf1.area.x + buf1.area.width := by omega
  have hsy1 : buf1.area.y ≤ a.y := by omega
  have hsy2 : a.y + a.height ≤ buf1.area.y + buf1.area.height := by omega
  have h65x : a.x + a.width ≤ 65535 := by omega
  have h65y : a.y + a.height ≤ 65535 := by omega
  have hmaxx : min (satAdd16 a.x a.width) (satAdd16 a.x s.child_buffer.area.width)
      = a.x + min a.width s.child_buffer.area.width := by
    simp only [satAdd16]
    omega
  have hmaxy : min (satAdd16 a.y a.height) (satAdd16 a.y s.child_buffer.area.height)
      = a.y + min a.height s.child_buffer.area.height := by
    simp only [satAdd16]
    omega
  have hrend1 := Renderer.render_spec s bd area buf buf1 hbuf1 ra hra a ha
  rw [hne, hmaxx, hmaxy] at hrend1
  simp only [Bool.false_eq_true, if_false] at hrend1
  have hrender : (Renderer.render s bd area buf).content
      = renderLoop s buf1.area a
          (a.x + min a.width s.child_buffer.area.width)
          (a.y + min a.height s.child_buffer.area.height) buf1.content := by
    rw [hrend1]
  have hcw : (x + s.x_offset) - a.x < s.child_buffer.area.width := by omega
  have hch : (y + s.y_offset) - a.y < s.child_buffer.area.height := by omega
  have hidx : ((y + s.y_offset) - a.y) * s.child_buffer.area.width + ((x + s.x_offset) - a.x)
      < s.child_buffer.content.length := by
    rw [hclen]
    have hb := @bufIndexOf_lt
      (⟨0, 0, s.child_buffer.area.width, s.child_buffer.area.height⟩ : Rect)
      ((x + s.x_offset) - a.x) ((y + s.y_offset) - a.y)
      (Nat.zero_le _) (by simpa using hcw) (Nat.zero_le _) (by simpa using hch)
    simpa [bufIndexOf] using hb
  refine ⟨hcw, hch, hidx, ?_⟩
  rw [hrender]
  rw [renderLoop_getElem? s buf1.area a
    (a.x + min a.width s.child_buffer.area.width)
    (a.y + min a.height s.child_buffer.area.height) buf1.content x y
    hx1 hx2 hy1 hy2 hsx1 (by omega) hsy1 (by omega) hlen]
  rw [rowGet_get_row s.child_buffer.content ((y + s.y_offset) - a.y)
    s.child_buffer.area.width ((x + s.x_offset) - a.x) hcw]

theorem render_copies_virtual_cells_witness :
    ((1 + stC6.x_offset) - 0) < stC6.child_buffer.area.width
    ∧ ((1 + stC6.y_offset) - 0) < stC6.child_buffer.area.height
    ∧ (((1 + stC6.y_offset) - 0) * stC6.child_buffer.area.width + ((1 + stC6.x_offset) - 0))
        < stC6.child_buffer.content.length
    ∧ ((Renderer.render stC6 (fun _ _ b => b) ⟨0, 0, 4, 4⟩ bufC6).content[bufIndexOf
          bufC6.area 1 1]?)
        = some (setCellFrom (bufC6.content.getD (bufIndexOf bufC6.area 1 1) default)
            (stC6.child_buffer.content.getD
              (((1 + stC6.y_offset) - 0) * stC6.child_buffer.area.width
                + ((1 + stC6.x_offset) - 0))
              default)) :=
  render_copies_virtual_cells stC6 (fun _ _ b => b) ⟨0, 0, 4, 4⟩ bufC6 bufC6 rfl
    ⟨0, 0, 4, 4⟩ rfl ⟨0, 0, 4, 4⟩ (by decide) (by decide) ⟨by decide, by decide⟩
    ⟨by decide, by decide⟩ (by decide) (by decide) (by decide) (by decide) 1 1
    (by decide) (by decide) (by decide) (by decide)
